import Mathlib

/-!
Verification development for the rigid-body integrator in
src/RigidSim/src/RigidSolver.hpp.

Scalars (`tReal`) are modelled as exact reals; the claims under test are
stated in exact arithmetic.  `Vector3.hpp` and `Matrix3x3.hpp` are not part
of the given sources; their operations (componentwise vector arithmetic,
row-major 3x3 matrix constructor and accessor, matrix-vector product,
3x3 inverse) are modelled from the spec as the standard operations the
spec's formulas use.
-/

namespace RigidSim

noncomputable section

/-- Modelled from the spec: `Vec3f` from the missing Vector3.hpp, a 3-vector
of scalars with componentwise arithmetic; `v[0], v[1], v[2]` are `x, y, z`. -/
structure Vec3 where
  x : ℝ
  y : ℝ
  z : ℝ

/-- Componentwise vector addition (`operator+` / `+=` of Vec3f). -/
def Vec3.add (a b : Vec3) : Vec3 :=
  ⟨a.x + b.x, a.y + b.y, a.z + b.z⟩

/-- Componentwise vector subtraction (`operator-` of Vec3f). -/
def Vec3.sub (a b : Vec3) : Vec3 :=
  ⟨a.x - b.x, a.y - b.y, a.z - b.z⟩

/-- Scalar times vector (`tReal * Vec3f` and `Vec3f * tReal`). -/
def Vec3.smul (c : ℝ) (v : Vec3) : Vec3 :=
  ⟨c * v.x, c * v.y, c * v.z⟩

/-- Vector divided by a scalar, componentwise (`Vec3f / tReal`). -/
def Vec3.divScalar (v : Vec3) (c : ℝ) : Vec3 :=
  ⟨v.x / c, v.y / c, v.z / c⟩

/-- Cross product, written out exactly as `RigidSolver::computeForceAndTorque`
spells it component by component. -/
def Vec3.cross (r f : Vec3) : Vec3 :=
  ⟨r.y * f.z - r.z * f.y, r.z * f.x - r.x * f.z, r.x * f.y - r.y * f.x⟩

/-- Quaternion with scalar part `w` and vector part `(x, y, z)`
(struct `Quaternion` in RigidSolver.hpp). -/
structure Quaternion where
  w : ℝ
  x : ℝ
  y : ℝ
  z : ℝ

/-- Hamilton product, `Quaternion::operator*` verbatim. -/
def Quaternion.mul (a q : Quaternion) : Quaternion :=
  ⟨a.w * q.w - a.x * q.x - a.y * q.y - a.z * q.z,
   a.w * q.x + a.x * q.w + a.y * q.z - a.z * q.y,
   a.w * q.y - a.x * q.z + a.y * q.w + a.z * q.x,
   a.w * q.z + a.x * q.y - a.y * q.x + a.z * q.w⟩

/-- Squared magnitude `w*w + x*x + y*y + z*z` of a quaternion. -/
def Quaternion.magSq (q : Quaternion) : ℝ :=
  q.w * q.w + q.x * q.x + q.y * q.y + q.z * q.z

/-- `Quaternion::normalized`: divide all four components by the Euclidean
magnitude `sqrt(w*w + x*x + y*y + z*z)`. -/
def Quaternion.normalized (q : Quaternion) : Quaternion :=
  let mag := Real.sqrt (q.w * q.w + q.x * q.x + q.y * q.y + q.z * q.z)
  ⟨q.w / mag, q.x / mag, q.y / mag, q.z / mag⟩

/-- Modelled from the spec: `Mat3f` from the missing Matrix3x3.hpp, a 3x3
matrix whose 9-argument constructor takes entries in row-major order,
consistent with the diagonal inertia tensor the spec reads off the `I0`
construction; `m(i,j)` is the entry in row `i`, column `j`. -/
structure Mat3 where
  m00 : ℝ
  m01 : ℝ
  m02 : ℝ
  m10 : ℝ
  m11 : ℝ
  m12 : ℝ
  m20 : ℝ
  m21 : ℝ
  m22 : ℝ

/-- Accessor `m(i,j)` (row `i`, column `j`); out-of-range indices give 0. -/
def Mat3.entry (m : Mat3) (i j : ℕ) : ℝ :=
  match i, j with
  | 0, 0 => m.m00
  | 0, 1 => m.m01
  | 0, 2 => m.m02
  | 1, 0 => m.m10
  | 1, 1 => m.m11
  | 1, 2 => m.m12
  | 2, 0 => m.m20
  | 2, 1 => m.m21
  | 2, 2 => m.m22
  | _, _ => 0

/-- `Mat3f::I()`, the identity matrix. -/
def Mat3.I : Mat3 :=
  ⟨1, 0, 0, 0, 1, 0, 0, 0, 1⟩

/-- Matrix-vector product (`Mat3f * Vec3f`), rows dotted with the vector. -/
def Mat3.mulVec (m : Mat3) (v : Vec3) : Vec3 :=
  ⟨m.m00 * v.x + m.m01 * v.y + m.m02 * v.z,
   m.m10 * v.x + m.m11 * v.y + m.m12 * v.z,
   m.m20 * v.x + m.m21 * v.y + m.m22 * v.z⟩

/-- Matrix-matrix product. -/
def Mat3.mulMat (a b : Mat3) : Mat3 :=
  ⟨a.m00 * b.m00 + a.m01 * b.m10 + a.m02 * b.m20,
   a.m00 * b.m01 + a.m01 * b.m11 + a.m02 * b.m21,
   a.m00 * b.m02 + a.m01 * b.m12 + a.m02 * b.m22,
   a.m10 * b.m00 + a.m11 * b.m10 + a.m12 * b.m20,
   a.m10 * b.m01 + a.m11 * b.m11 + a.m12 * b.m21,
   a.m10 * b.m02 + a.m11 * b.m12 + a.m12 * b.m22,
   a.m20 * b.m00 + a.m21 * b.m10 + a.m22 * b.m20,
   a.m20 * b.m01 + a.m21 * b.m11 + a.m22 * b.m21,
   a.m20 * b.m02 + a.m21 * b.m12 + a.m22 * b.m22⟩

/-- Transpose of a 3x3 matrix. -/
def Mat3.transpose (m : Mat3) : Mat3 :=
  ⟨m.m00, m.m10, m.m20, m.m01, m.m11, m.m21, m.m02, m.m12, m.m22⟩

/-- Modelled from the spec: `Mat3f::invert` from the missing Matrix3x3.hpp,
the standard 3x3 inverse via adjugate over determinant, matching the spec's
`I0inv = I0⁻¹`. -/
def Mat3.invert (m : Mat3) : Mat3 :=
  let det := m.m00 * (m.m11 * m.m22 - m.m12 * m.m21)
           - m.m01 * (m.m10 * m.m22 - m.m12 * m.m20)
           + m.m02 * (m.m10 * m.m21 - m.m11 * m.m20)
  ⟨(m.m11 * m.m22 - m.m12 * m.m21) / det,
   (m.m02 * m.m21 - m.m01 * m.m22) / det,
   (m.m01 * m.m12 - m.m02 * m.m11) / det,
   (m.m12 * m.m20 - m.m10 * m.m22) / det,
   (m.m00 * m.m22 - m.m02 * m.m20) / det,
   (m.m02 * m.m10 - m.m00 * m.m12) / det,
   (m.m10 * m.m21 - m.m11 * m.m20) / det,
   (m.m01 * m.m20 - m.m00 * m.m21) / det,
   (m.m00 * m.m11 - m.m01 * m.m10) / det⟩

/-- `Quaternion::toMatrix` verbatim (row-major constructor arguments). -/
def Quaternion.toMatrix (q : Quaternion) : Mat3 :=
  let xx := q.x * q.x
  let yy := q.y * q.y
  let zz := q.z * q.z
  let xy := q.x * q.y
  let xz := q.x * q.z
  let yz := q.y * q.z
  let wx := q.w * q.x
  let wy := q.w * q.y
  let wz := q.w * q.z
  ⟨1 - 2 * (yy + zz), 2 * (xy - wz), 2 * (xz + wy),
   2 * (xy + wz), 1 - 2 * (xx + zz), 2 * (yz - wx),
   2 * (xz - wy), 2 * (yz + wx), 1 - 2 * (xx + yy)⟩

/-- 4x4 matrix as `glm::mat4` stores it: the 16 constructor arguments in
column-major order (`cJrI` is the entry in column `J`, row `I`). -/
structure Mat4 where
  c0r0 : ℝ
  c0r1 : ℝ
  c0r2 : ℝ
  c0r3 : ℝ
  c1r0 : ℝ
  c1r1 : ℝ
  c1r2 : ℝ
  c1r3 : ℝ
  c2r0 : ℝ
  c2r1 : ℝ
  c2r2 : ℝ
  c2r3 : ℝ
  c3r0 : ℝ
  c3r1 : ℝ
  c3r2 : ℝ
  c3r3 : ℝ

/-- Entry of a 4x4 matrix at row `i`, column `j`; out of range gives 0. -/
def Mat4.entry (m : Mat4) (i j : ℕ) : ℝ :=
  match j, i with
  | 0, 0 => m.c0r0
  | 0, 1 => m.c0r1
  | 0, 2 => m.c0r2
  | 0, 3 => m.c0r3
  | 1, 0 => m.c1r0
  | 1, 1 => m.c1r1
  | 1, 2 => m.c1r2
  | 1, 3 => m.c1r3
  | 2, 0 => m.c2r0
  | 2, 1 => m.c2r1
  | 2, 2 => m.c2r2
  | 2, 3 => m.c2r3
  | 3, 0 => m.c3r0
  | 3, 1 => m.c3r1
  | 3, 2 => m.c3r2
  | 3, 3 => m.c3r3
  | _, _ => 0

/-- `struct BodyAttributes`: the rigid-body state entity. -/
structure BodyAttributes where
  M : ℝ
  I0 : Mat3
  I0inv : Mat3
  Iinv : Mat3
  X : Vec3
  R : Mat3
  orientation : Quaternion
  P : Vec3
  L : Vec3
  V : Vec3
  omega : Vec3
  F : Vec3
  tau : Vec3
  vdata0 : List Vec3

/-- `BodyAttributes::worldMat`: the 16 `glm::mat4` constructor arguments in
the exact order the source passes them (column-major). -/
def BodyAttributes.worldMat (b : BodyAttributes) : Mat4 :=
  ⟨b.R.entry 0 0, b.R.entry 1 0, b.R.entry 2 0, 0,
   b.R.entry 0 1, b.R.entry 1 1, b.R.entry 2 1, 0,
   b.R.entry 0 2, b.R.entry 1 2, b.R.entry 2 2, 0,
   b.X.x, b.X.y, b.X.z, 1⟩

/-- `Box::Box(w, h, d, dens, v0, omega0)`: the shape-to-body factory.
Fields not assigned in the `Box` constructor keep the values set by the
`BodyAttributes` default constructor (`X = 0`, `R = I`, `P = L = 0`,
`F = tau = 0`, `orientation = (1,0,0,0)`); `M`, `I0`, `I0inv`, `Iinv`,
`V`, `omega` and the 8 vertices are assigned exactly as in the source. -/
def Box (w h d dens : ℝ) (v0 omega0 : Vec3) : BodyAttributes :=
  let M := dens * w * h * d
  let I0 : Mat3 :=
    ⟨(1 / 12) * M * (h * h + d * d), 0, 0,
     0, (1 / 12) * M * (w * w + d * d), 0,
     0, 0, (1 / 12) * M * (w * w + h * h)⟩
  { M := M
    I0 := I0
    I0inv := I0.invert
    Iinv := I0.invert
    X := ⟨0, 0, 0⟩
    R := Mat3.I
    orientation := ⟨1, 0, 0, 0⟩
    P := ⟨0, 0, 0⟩
    L := ⟨0, 0, 0⟩
    V := v0
    omega := omega0
    F := ⟨0, 0, 0⟩
    tau := ⟨0, 0, 0⟩
    vdata0 :=
      [⟨-0.5 * w, -0.5 * h, -0.5 * d⟩,
       ⟨0.5 * w, -0.5 * h, -0.5 * d⟩,
       ⟨0.5 * w, 0.5 * h, -0.5 * d⟩,
       ⟨-0.5 * w, 0.5 * h, -0.5 * d⟩,
       ⟨-0.5 * w, -0.5 * h, 0.5 * d⟩,
       ⟨0.5 * w, -0.5 * h, 0.5 * d⟩,
       ⟨0.5 * w, 0.5 * h, 0.5 * d⟩,
       ⟨-0.5 * w, 0.5 * h, 0.5 * d⟩] }

/-- `class RigidSolver`: the bound body (the non-owning pointer is modelled
by value), gravity `_g`, step counter `_step` and simulation time `_sim_t`. -/
structure RigidSolver where
  body : BodyAttributes
  g : Vec3
  stepCount : ℕ
  simT : ℝ

/-- `RigidSolver::init`: rebind and reset step count and simulation time. -/
def RigidSolver.init (s : RigidSolver) (body0 : BodyAttributes) : RigidSolver :=
  { s with body := body0, stepCount := 0, simT := 0 }

/-- `RigidSolver::computeForceAndTorque`: overwrite `F` with `M * g`; when
the step counter equals 1, additionally add the fixed instantaneous force
`(0.15, 0.25, 0.03)` to `F` and set `tau` to the cross product of
`vdata0[0] - X` with that force.  On every other step `tau` is not written. -/
def computeForceAndTorque (g : Vec3) (stepc : ℕ) (b : BodyAttributes) : BodyAttributes :=
  let b1 := { b with F := Vec3.smul b.M g }
  if stepc = 1 then
    let instantForce : Vec3 := ⟨0.15, 0.25, 0.03⟩
    let r := Vec3.sub (b1.vdata0.getD 0 ⟨0, 0, 0⟩) b1.X
    { b1 with
      F := Vec3.add b1.F instantForce,
      tau := Vec3.cross r instantForce }
  else
    b1

/-- `RigidSolver::step(dt)`: force/torque accumulation, linear momentum
update, angular momentum update, quaternion orientation update with
renormalization, rotation-matrix refresh, then counter and time advance. -/
def RigidSolver.step (s : RigidSolver) (dt : ℝ) : RigidSolver :=
  let b := computeForceAndTorque s.g s.stepCount s.body
  let P' := Vec3.add b.P (Vec3.smul dt b.F)
  let V' := Vec3.divScalar P' b.M
  let X' := Vec3.add b.X (Vec3.smul dt V')
  let L' := Vec3.add b.L (Vec3.smul dt b.tau)
  let omega' := b.Iinv.mulVec L'
  let dq0 : Quaternion := ⟨0, omega'.x, omega'.y, omega'.z⟩
  let dq := Quaternion.mul (Quaternion.mul dq0 b.orientation) ⟨0.5, 0, 0, 0⟩
  let q' := Quaternion.normalized
    ⟨b.orientation.w + dq.w * dt,
     b.orientation.x + dq.x * dt,
     b.orientation.y + dq.y * dt,
     b.orientation.z + dq.z * dt⟩
  { s with
    body := { b with
      P := P', V := V', X := X', L := L', omega := omega',
      orientation := q', R := q'.toMatrix },
    stepCount := s.stepCount + 1,
    simT := s.simT + dt }

/-- The quaternion that `step` feeds to `normalized`: the current
orientation plus `dt` times each component of `0.5 * (omega_quat * q)`. -/
def preNormSum (s : RigidSolver) (dt : ℝ) : Quaternion :=
  let b := computeForceAndTorque s.g s.stepCount s.body
  let L' := Vec3.add b.L (Vec3.smul dt b.tau)
  let omega' := b.Iinv.mulVec L'
  let dq0 : Quaternion := ⟨0, omega'.x, omega'.y, omega'.z⟩
  let dq := Quaternion.mul (Quaternion.mul dq0 b.orientation) ⟨0.5, 0, 0, 0⟩
  ⟨b.orientation.w + dq.w * dt,
   b.orientation.x + dq.x * dt,
   b.orientation.y + dq.y * dt,
   b.orientation.z + dq.z * dt⟩

/-- The force accumulated by `computeForceAndTorque` during a given step. -/
def accumulatedForce (s : RigidSolver) : Vec3 :=
  (computeForceAndTorque s.g s.stepCount s.body).F

/-- Iterated stepping: fold `step` over a list of time increments. -/
def iterSteps (s : RigidSolver) (dts : List ℝ) : RigidSolver :=
  dts.foldl (fun t dt => t.step dt) s

/-- The body after force/torque accumulation for the step a solver is about
to take. -/
def bAcc (s : RigidSolver) : BodyAttributes :=
  computeForceAndTorque s.g s.stepCount s.body

theorem computeFT_eq (g : Vec3) (c : ℕ) (b : BodyAttributes) :
    computeForceAndTorque g c b =
      if c = 1 then
        { b with
          F := Vec3.add (Vec3.smul b.M g) ⟨0.15, 0.25, 0.03⟩,
          tau := Vec3.cross (Vec3.sub (b.vdata0.getD 0 ⟨0, 0, 0⟩) b.X)
                   ⟨0.15, 0.25, 0.03⟩ }
      else
        { b with F := Vec3.smul b.M g } := by
  simp only [computeForceAndTorque]

theorem computeFT_keeps (g : Vec3) (c : ℕ) (b : BodyAttributes) :
    (computeForceAndTorque g c b).M = b.M
  ∧ (computeForceAndTorque g c b).I0 = b.I0
  ∧ (computeForceAndTorque g c b).I0inv = b.I0inv
  ∧ (computeForceAndTorque g c b).Iinv = b.Iinv
  ∧ (computeForceAndTorque g c b).X = b.X
  ∧ (computeForceAndTorque g c b).R = b.R
  ∧ (computeForceAndTorque g c b).orientation = b.orientation
  ∧ (computeForceAndTorque g c b).P = b.P
  ∧ (computeForceAndTorque g c b).L = b.L
  ∧ (computeForceAndTorque g c b).vdata0 = b.vdata0 := by
  rw [computeFT_eq]
  split <;> exact ⟨rfl, rfl, rfl, rfl, rfl, rfl, rfl, rfl, rfl, rfl⟩

theorem computeFT_tau_of_ne (g : Vec3) (c : ℕ) (b : BodyAttributes) (hc : c ≠ 1) :
    (computeForceAndTorque g c b).tau = b.tau := by
  rw [computeFT_eq, if_neg hc]

theorem computeFT_F_of_ne (g : Vec3) (c : ℕ) (b : BodyAttributes) (hc : c ≠ 1) :
    (computeForceAndTorque g c b).F = Vec3.smul b.M g := by
  rw [computeFT_eq, if_neg hc]

theorem step_body_P (s : RigidSolver) (dt : ℝ) :
    (s.step dt).body.P = Vec3.add (bAcc s).P (Vec3.smul dt (bAcc s).F) := rfl

theorem step_body_V (s : RigidSolver) (dt : ℝ) :
    (s.step dt).body.V = Vec3.divScalar ((s.step dt).body.P) (bAcc s).M := rfl

theorem step_body_X (s : RigidSolver) (dt : ℝ) :
    (s.step dt).body.X = Vec3.add (bAcc s).X (Vec3.smul dt ((s.step dt).body.V)) := rfl

theorem step_body_L (s : RigidSolver) (dt : ℝ) :
    (s.step dt).body.L = Vec3.add (bAcc s).L (Vec3.smul dt (bAcc s).tau) := rfl

theorem step_body_omega (s : RigidSolver) (dt : ℝ) :
    (s.step dt).body.omega = (bAcc s).Iinv.mulVec ((s.step dt).body.L) := rfl

theorem step_body_orientation (s : RigidSolver) (dt : ℝ) :
    (s.step dt).body.orientation = (preNormSum s dt).normalized := rfl

theorem step_body_R (s : RigidSolver) (dt : ℝ) :
    (s.step dt).body.R = ((s.step dt).body.orientation).toMatrix := rfl

theorem step_body_F (s : RigidSolver) (dt : ℝ) :
    (s.step dt).body.F = (bAcc s).F := rfl

theorem step_body_tau (s : RigidSolver) (dt : ℝ) :
    (s.step dt).body.tau = (bAcc s).tau := rfl

theorem step_body_M (s : RigidSolver) (dt : ℝ) :
    (s.step dt).body.M = (bAcc s).M := rfl

theorem step_body_Iinv (s : RigidSolver) (dt : ℝ) :
    (s.step dt).body.Iinv = (bAcc s).Iinv := rfl

theorem step_body_I0 (s : RigidSolver) (dt : ℝ) :
    (s.step dt).body.I0 = (bAcc s).I0 := rfl

theorem step_body_I0inv (s : RigidSolver) (dt : ℝ) :
    (s.step dt).body.I0inv = (bAcc s).I0inv := rfl

theorem step_body_vdata0 (s : RigidSolver) (dt : ℝ) :
    (s.step dt).body.vdata0 = (bAcc s).vdata0 := rfl

theorem step_stepCount (s : RigidSolver) (dt : ℝ) :
    (s.step dt).stepCount = s.stepCount + 1 := rfl

attribute [ext] Vec3 Quaternion Mat3 Mat4

theorem Vec3.smul_divScalar (c : ℝ) (v : Vec3) (hc : c ≠ 0) :
    Vec3.smul c (Vec3.divScalar v c) = v := by
  ext <;> simp only [Vec3.smul, Vec3.divScalar] <;> field_simp

/-- A default solver bound to the default box, used as concrete input by the
witnesses: `Box(1,1,1,10)` (so `M = 10`), gravity `(0, -0.98, 0)`, step
counter and simulation time zero. -/
def solverW : RigidSolver :=
  ⟨Box 1 1 1 10 ⟨0, 0, 0⟩ ⟨0, 0, 0⟩, ⟨0, -0.98, 0⟩, 0, 0⟩

/-- C3: immediately after every `step(dt)` on a body with `M ≠ 0`, the
derived velocities satisfy `V·M = P` and `ω = Iinv·L`, recomputed from the
just-updated momenta. -/
theorem velocities_derived_from_momenta (s : RigidSolver) (dt : ℝ)
    (hM : s.body.M ≠ 0) :
    Vec3.smul ((s.step dt).body.M) ((s.step dt).body.V) = (s.step dt).body.P
  ∧ (s.step dt).body.omega
      = Mat3.mulVec ((s.step dt).body.Iinv) ((s.step dt).body.L) := by
  constructor
  · have hMacc : (bAcc s).M = s.body.M := (computeFT_keeps s.g s.stepCount s.body).1
    rw [step_body_M, step_body_V, hMacc]
    exact Vec3.smul_divScalar _ _ hM
  · rfl

/-- Witness for C3 at the concrete default solver. -/
theorem velocities_derived_from_momenta_witness :
    solverW.body.M ≠ 0
  ∧ (Vec3.smul ((solverW.step 0.01).body.M) ((solverW.step 0.01).body.V)
        = (solverW.step 0.01).body.P
      ∧ (solverW.step 0.01).body.omega
        = Mat3.mulVec ((solverW.step 0.01).body.Iinv) ((solverW.step 0.01).body.L)) := by
  have hM : solverW.body.M ≠ 0 := by norm_num [solverW, Box]
  exact ⟨hM, velocities_derived_from_momenta solverW 0.01 hM⟩

theorem iter_Iinv (dts : List ℝ) :
    ∀ s : RigidSolver, (iterSteps s dts).body.Iinv = s.body.Iinv := by
  induction dts with
  | nil => intro s; rfl
  | cons dt rest ih =>
    intro s
    have h1 : iterSteps s (dt :: rest) = iterSteps (s.step dt) rest := rfl
    rw [h1, ih]
    rw [step_body_Iinv]
    exact (computeFT_keeps s.g s.stepCount s.body).2.2.2.1

/-- C5: `Iinv` equals `I0inv` at construction, `step` never modifies `Iinv`,
`M`, `I0`, `I0inv` or `vdata0`, and after any sequence of steps from a
freshly constructed box-bound solver `Iinv` still equals `I0inv`. -/
theorem inertia_fields_frozen :
    (∀ w h d dens : ℝ, ∀ v0 omega0 : Vec3,
      (Box w h d dens v0 omega0).Iinv = (Box w h d dens v0 omega0).I0inv)
  ∧ (∀ s : RigidSolver, ∀ dt : ℝ,
      (s.step dt).body.Iinv = s.body.Iinv
      ∧ (s.step dt).body.M = s.body.M
      ∧ (s.step dt).body.I0 = s.body.I0
      ∧ (s.step dt).body.I0inv = s.body.I0inv
      ∧ (s.step dt).body.vdata0 = s.body.vdata0)
  ∧ (∀ w h d dens : ℝ, ∀ v0 omega0 : Vec3, ∀ g : Vec3, ∀ dts : List ℝ,
      (iterSteps (RigidSolver.mk (Box w h d dens v0 omega0) g 0 0) dts).body.Iinv
        = (Box w h d dens v0 omega0).I0inv) := by
  refine ⟨fun w h d dens v0 omega0 => rfl, fun s dt => ?_, fun w h d dens v0 omega0 g dts => ?_⟩
  · refine ⟨?_, ?_, ?_, ?_, ?_⟩
    · rw [step_body_Iinv]; exact (computeFT_keeps s.g s.stepCount s.body).2.2.2.1
    · rw [step_body_M]; exact (computeFT_keeps s.g s.stepCount s.body).1
    · rw [step_body_I0]; exact (computeFT_keeps s.g s.stepCount s.body).2.1
    · rw [step_body_I0inv]; exact (computeFT_keeps s.g s.stepCount s.body).2.2.1
    · rw [step_body_vdata0]
      exact (computeFT_keeps s.g s.stepCount s.body).2.2.2.2.2.2.2.2.2
  · rw [iter_Iinv]
    rfl

/-- C6: every `step(dt)` performs the linear update in symplectic-Euler
order: `P_new = P_old + F·dt`, then `V_new = P_new / M`, then
`X_new = X_old + V_new·dt`; equivalently, for `M ≠ 0`,
`X_new = X_old + ((P_old + F·dt)/M)·dt`. -/
theorem symplectic_linear_update (s : RigidSolver) (dt : ℝ)
    (_hM : s.body.M ≠ 0) :
    (s.step dt).body.P = Vec3.add s.body.P (Vec3.smul dt (accumulatedForce s))
  ∧ (s.step dt).body.V = Vec3.divScalar ((s.step dt).body.P) s.body.M
  ∧ (s.step dt).body.X = Vec3.add s.body.X (Vec3.smul dt ((s.step dt).body.V))
  ∧ (s.step dt).body.X
      = Vec3.add s.body.X
          (Vec3.smul dt
            (Vec3.divScalar (Vec3.add s.body.P (Vec3.smul dt (accumulatedForce s)))
              s.body.M)) := by
  have hMk : (bAcc s).M = s.body.M :=
    (computeFT_keeps s.g s.stepCount s.body).1
  have hXk : (bAcc s).X = s.body.X :=
    (computeFT_keeps s.g s.stepCount s.body).2.2.2.2.1
  have hPk : (bAcc s).P = s.body.P :=
    (computeFT_keeps s.g s.stepCount s.body).2.2.2.2.2.2.2.1
  have hFk : (bAcc s).F = accumulatedForce s := rfl
  have hP : (s.step dt).body.P
      = Vec3.add s.body.P (Vec3.smul dt (accumulatedForce s)) := by
    rw [step_body_P, hPk, hFk]
  have hV : (s.step dt).body.V = Vec3.divScalar ((s.step dt).body.P) s.body.M := by
    rw [step_body_V, hMk]
  have hX : (s.step dt).body.X = Vec3.add s.body.X (Vec3.smul dt ((s.step dt).body.V)) := by
    rw [step_body_X, hXk]
  refine ⟨hP, hV, hX, ?_⟩
  rw [hX, hV, hP]

/-- Witness for C6 at the concrete default solver. -/
theorem symplectic_linear_update_witness :
    solverW.body.M ≠ 0
  ∧ ((solverW.step 0.01).body.P
        = Vec3.add solverW.body.P (Vec3.smul 0.01 (accumulatedForce solverW))
      ∧ (solverW.step 0.01).body.V
        = Vec3.divScalar ((solverW.step 0.01).body.P) solverW.body.M
      ∧ (solverW.step 0.01).body.X
        = Vec3.add solverW.body.X (Vec3.smul 0.01 ((solverW.step 0.01).body.V))
      ∧ (solverW.step 0.01).body.X
        = Vec3.add solverW.body.X
            (Vec3.smul 0.01
              (Vec3.divScalar
                (Vec3.add solverW.body.P (Vec3.smul 0.01 (accumulatedForce solverW)))
                solverW.body.M))) := by
  have hM : solverW.body.M ≠ 0 := by norm_num [solverW, Box]
  exact ⟨hM, symplectic_linear_update solverW 0.01 hM⟩

/-- C9: `worldMat` packs, in column-major order, the rotation matrix `R`
into the upper-left 3x3 block (entry `(i,j)` of the 4x4 result equals
`R(i,j)`), the position into the last column with bottom-right 1, and zeros
into the remaining fourth-row entries. -/
theorem worldMat_layout (b : BodyAttributes) :
    (b.worldMat).entry 0 0 = b.R.entry 0 0
  ∧ (b.worldMat).entry 1 0 = b.R.entry 1 0
  ∧ (b.worldMat).entry 2 0 = b.R.entry 2 0
  ∧ (b.worldMat).entry 0 1 = b.R.entry 0 1
  ∧ (b.worldMat).entry 1 1 = b.R.entry 1 1
  ∧ (b.worldMat).entry 2 1 = b.R.entry 2 1
  ∧ (b.worldMat).entry 0 2 = b.R.entry 0 2
  ∧ (b.worldMat).entry 1 2 = b.R.entry 1 2
  ∧ (b.worldMat).entry 2 2 = b.R.entry 2 2
  ∧ (b.worldMat).entry 0 3 = b.X.x
  ∧ (b.worldMat).entry 1 3 = b.X.y
  ∧ (b.worldMat).entry 2 3 = b.X.z
  ∧ (b.worldMat).entry 3 0 = 0
  ∧ (b.worldMat).entry 3 1 = 0
  ∧ (b.worldMat).entry 3 2 = 0
  ∧ (b.worldMat).entry 3 3 = 1 :=
  ⟨rfl, rfl, rfl, rfl, rfl, rfl, rfl, rfl, rfl, rfl, rfl, rfl, rfl, rfl, rfl, rfl⟩

/-- C10: for every quaternion of unit squared magnitude, `toMatrix` yields
an orthonormal matrix (transpose times the matrix is the identity, in exact
arithmetic), and the quaternion `(1,0,0,0)` converts exactly to the
identity matrix. -/
theorem toMatrix_orthonormal_and_identity :
    (∀ q : Quaternion, Quaternion.magSq q = 1 →
      Mat3.mulMat (Mat3.transpose (Quaternion.toMatrix q)) (Quaternion.toMatrix q)
        = Mat3.I)
  ∧ Quaternion.toMatrix ⟨1, 0, 0, 0⟩ = Mat3.I := by
  constructor
  · intro q hq
    obtain ⟨w, x, y, z⟩ := q
    simp only [Quaternion.magSq] at hq
    refine Mat3.ext ?_ ?_ ?_ ?_ ?_ ?_ ?_ ?_ ?_ <;>
      simp only [Quaternion.toMatrix, Mat3.mulMat, Mat3.transpose, Mat3.I]
    · linear_combination (4 * (y * y + z * z)) * hq
    · linear_combination (-4 * x * y) * hq
    · linear_combination (-4 * x * z) * hq
    · linear_combination (-4 * x * y) * hq
    · linear_combination (4 * (x * x + z * z)) * hq
    · linear_combination (-4 * y * z) * hq
    · linear_combination (-4 * x * z) * hq
    · linear_combination (-4 * y * z) * hq
    · linear_combination (4 * (x * x + y * y)) * hq
  · refine Mat3.ext ?_ ?_ ?_ ?_ ?_ ?_ ?_ ?_ ?_ <;>
      norm_num [Quaternion.toMatrix, Mat3.I]

/-- Witness for C10 at the concrete unit quaternion `(0.6, 0.8, 0, 0)`. -/
theorem toMatrix_orthonormal_and_identity_witness :
    Quaternion.magSq ⟨0.6, 0.8, 0, 0⟩ = 1
  ∧ Mat3.mulMat (Mat3.transpose (Quaternion.toMatrix ⟨0.6, 0.8, 0, 0⟩))
      (Quaternion.toMatrix ⟨0.6, 0.8, 0, 0⟩) = Mat3.I := by
  have h : Quaternion.magSq ⟨0.6, 0.8, 0, 0⟩ = 1 := by
    norm_num [Quaternion.magSq]
  exact ⟨h, toMatrix_orthonormal_and_identity.1 ⟨0.6, 0.8, 0, 0⟩ h⟩

theorem normalized_magSq (q : Quaternion)
    (h : Real.sqrt (Quaternion.magSq q) ≠ 0) :
    Quaternion.magSq (Quaternion.normalized q) = 1 := by
  obtain ⟨w, x, y, z⟩ := q
  simp only [Quaternion.magSq] at h ⊢
  have hS : (0:ℝ) ≤ w * w + x * x + y * y + z * z := by
    nlinarith [mul_self_nonneg w, mul_self_nonneg x, mul_self_nonneg y,
      mul_self_nonneg z]
  have hSne : w * w + x * x + y * y + z * z ≠ 0 := by
    intro h0
    apply h
    rw [h0, Real.sqrt_zero]
  have hmul : Real.sqrt (w * w + x * x + y * y + z * z)
      * Real.sqrt (w * w + x * x + y * y + z * z)
      = w * w + x * x + y * y + z * z := Real.mul_self_sqrt hS
  simp only [Quaternion.normalized]
  have hsplit :
      (w / Real.sqrt (w * w + x * x + y * y + z * z))
        * (w / Real.sqrt (w * w + x * x + y * y + z * z))
      + (x / Real.sqrt (w * w + x * x + y * y + z * z))
        * (x / Real.sqrt (w * w + x * x + y * y + z * z))
      + (y / Real.sqrt (w * w + x * x + y * y + z * z))
        * (y / Real.sqrt (w * w + x * x + y * y + z * z))
      + (z / Real.sqrt (w * w + x * x + y * y + z * z))
        * (z / Real.sqrt (w * w + x * x + y * y + z * z))
      = (w * w + x * x + y * y + z * z)
        / (Real.sqrt (w * w + x * x + y * y + z * z)
            * Real.sqrt (w * w + x * x + y * y + z * z)) := by
    ring
  rw [hsplit, hmul, div_self hSne]

/-- C4: after every `step(dt)`, provided the pre-normalization orientation
sum has nonzero magnitude, the orientation quaternion has unit squared
magnitude in exact arithmetic and the cached `R` equals `toMatrix` of that
orientation. -/
theorem orientation_unit_and_R_synced (s : RigidSolver) (dt : ℝ)
    (h : Real.sqrt (Quaternion.magSq (preNormSum s dt)) ≠ 0) :
    Quaternion.magSq ((s.step dt).body.orientation) = 1
  ∧ (s.step dt).body.R = Quaternion.toMatrix ((s.step dt).body.orientation) := by
  refine ⟨?_, rfl⟩
  rw [step_body_orientation]
  exact normalized_magSq (preNormSum s dt) h

/-- Witness for C4 at the concrete default solver, whose first step leaves
the pre-normalization sum at `(1,0,0,0)`. -/
theorem orientation_unit_and_R_synced_witness :
    Real.sqrt (Quaternion.magSq (preNormSum solverW 0.01)) ≠ 0
  ∧ (Quaternion.magSq ((solverW.step 0.01).body.orientation) = 1
      ∧ (solverW.step 0.01).body.R
        = Quaternion.toMatrix ((solverW.step 0.01).body.orientation)) := by
  have h : Real.sqrt (Quaternion.magSq (preNormSum solverW 0.01)) ≠ 0 := by
    norm_num [preNormSum, computeForceAndTorque, solverW, Box, Vec3.add,
      Vec3.smul, Mat3.mulVec, Mat3.invert, Quaternion.mul, Quaternion.magSq]
  exact ⟨h, orientation_unit_and_R_synced solverW 0.01 h⟩

theorem normalized_of_unit (q : Quaternion) (hq : Quaternion.magSq q = 1) :
    Quaternion.normalized q = q := by
  obtain ⟨w, x, y, z⟩ := q
  simp only [Quaternion.magSq] at hq
  simp only [Quaternion.normalized, hq, Real.sqrt_one, div_one]

/-- A solver bound to the default box with zero gravity and step counter 0,
used as concrete input by the stasis witness. -/
def solverZ : RigidSolver :=
  ⟨Box 1 1 1 10 ⟨0, 0, 0⟩ ⟨0, 0, 0⟩, ⟨0, 0, 0⟩, 0, 0⟩

/-- A solver bound to the default box whose step counter is already 1, the
state in which the accumulation policy fires the impulse branch. -/
def solverX : RigidSolver :=
  ⟨Box 1 1 1 10 ⟨0, 0, 0⟩ ⟨0, 0, 0⟩, ⟨0, -0.98, 0⟩, 1, 0⟩

/-- C7: a body with zero momenta, zero torque accumulator, unit orientation
quaternion and zero gravity, on a step where the impulse branch does not
fire, keeps `X`, the orientation quaternion, `P` and `L` unchanged under
`step(dt)`, for every `dt`. -/
theorem zero_state_stasis (s : RigidSolver) (dt : ℝ)
    (hP : s.body.P = ⟨0, 0, 0⟩) (hL : s.body.L = ⟨0, 0, 0⟩)
    (htau : s.body.tau = ⟨0, 0, 0⟩)
    (hq : Quaternion.magSq s.body.orientation = 1)
    (hg : s.g = ⟨0, 0, 0⟩) (hc : s.stepCount ≠ 1) :
    (s.step dt).body.X = s.body.X
  ∧ (s.step dt).body.orientation = s.body.orientation
  ∧ (s.step dt).body.P = s.body.P
  ∧ (s.step dt).body.L = s.body.L := by
  have hFz : Vec3.smul s.body.M ⟨0, 0, 0⟩ = ⟨0, 0, 0⟩ := by
    ext <;> simp [Vec3.smul]
  have hbAcc : computeForceAndTorque s.g s.stepCount s.body
      = { s.body with F := (⟨0, 0, 0⟩ : Vec3) } := by
    rw [computeFT_eq, if_neg hc, hg, hFz]
  have hPs : (s.step dt).body.P = ⟨0, 0, 0⟩ := by
    rw [step_body_P]
    simp only [bAcc, hbAcc]
    rw [hP]
    ext <;> simp [Vec3.add, Vec3.smul]
  have hVs : (s.step dt).body.V = ⟨0, 0, 0⟩ := by
    rw [step_body_V, hPs]
    ext <;> simp [Vec3.divScalar]
  have hLs : (s.step dt).body.L = ⟨0, 0, 0⟩ := by
    rw [step_body_L]
    simp only [bAcc, hbAcc]
    rw [hL, htau]
    ext <;> simp [Vec3.add, Vec3.smul]
  have hpre : preNormSum s dt = s.body.orientation := by
    simp only [preNormSum, hbAcc]
    rw [hL, htau]
    ext <;> simp [Quaternion.mul, Mat3.mulVec, Vec3.add, Vec3.smul]
  refine ⟨?_, ?_, ?_, ?_⟩
  · rw [step_body_X, hVs]
    simp only [bAcc, hbAcc]
    ext <;> simp [Vec3.add, Vec3.smul]
  · rw [step_body_orientation, hpre]
    exact normalized_of_unit s.body.orientation hq
  · rw [hPs, hP]
  · rw [hLs, hL]

/-- Witness for C7 at the zero-gravity default-box solver. -/
theorem zero_state_stasis_witness :
    (solverZ.body.P = ⟨0, 0, 0⟩ ∧ solverZ.body.L = ⟨0, 0, 0⟩
      ∧ solverZ.body.tau = ⟨0, 0, 0⟩
      ∧ Quaternion.magSq solverZ.body.orientation = 1
      ∧ solverZ.g = ⟨0, 0, 0⟩ ∧ solverZ.stepCount ≠ 1)
  ∧ ((solverZ.step 0.25).body.X = solverZ.body.X
      ∧ (solverZ.step 0.25).body.orientation = solverZ.body.orientation
      ∧ (solverZ.step 0.25).body.P = solverZ.body.P
      ∧ (solverZ.step 0.25).body.L = solverZ.body.L) := by
  have h1 : solverZ.body.P = ⟨0, 0, 0⟩ := rfl
  have h2 : solverZ.body.L = ⟨0, 0, 0⟩ := rfl
  have h3 : solverZ.body.tau = ⟨0, 0, 0⟩ := rfl
  have h4 : Quaternion.magSq solverZ.body.orientation = 1 := by
    norm_num [solverZ, Box, Quaternion.magSq]
  have h5 : solverZ.g = ⟨0, 0, 0⟩ := rfl
  have h6 : solverZ.stepCount ≠ 1 := by norm_num [solverZ]
  exact ⟨⟨h1, h2, h3, h4, h5, h6⟩,
    zero_state_stasis solverZ 0.25 h1 h2 h3 h4 h5 h6⟩

/-- Counterexample to C1 as stated: on the very first `step` after binding
(step counter 0), the force accumulator is only `M·g = (0, -9.8, 0)`, not
`M·g + (0.15, 0.25, 0.03) = (0.15, -9.55, 0.03)`: the impulse branch does
not fire on the first call. -/
theorem first_step_takes_no_impulse_cex :
    (solverW.step 0.01).body.F ≠ (⟨0.15, -9.55, 0.03⟩ : Vec3) := by
  have hne : solverW.stepCount ≠ 1 := by norm_num [solverW]
  have hx : (solverW.step 0.01).body.F.x = 0 := by
    rw [step_body_F]
    simp only [bAcc]
    rw [computeFT_F_of_ne solverW.g solverW.stepCount solverW.body hne]
    norm_num [solverW, Box, Vec3.smul]
  intro hEq
  rw [hEq] at hx
  norm_num at hx

/-- C1 (amended): the impulse branch fires on the call made when the step
counter equals 1 — the second call after construction or `init` (which
resets the counter to 0) — not the first.  On a counter-0 call `F` is just
`M·g` and `tau` is untouched; on the counter-1 call `F = M·g + (0.15,
0.25, 0.03)` and `tau = (vdata0[0] − X) × (0.15, 0.25, 0.03)`. -/
theorem impulse_fires_on_counter_one :
    (∀ s : RigidSolver, ∀ b0 : BodyAttributes, (s.init b0).stepCount = 0)
  ∧ (∀ s : RigidSolver, ∀ dt : ℝ, s.stepCount = 0 →
      (s.step dt).body.F = Vec3.smul s.body.M s.g
      ∧ (s.step dt).body.tau = s.body.tau)
  ∧ (∀ s : RigidSolver, ∀ dt : ℝ, s.stepCount = 1 →
      (s.step dt).body.F
        = Vec3.add (Vec3.smul s.body.M s.g) ⟨0.15, 0.25, 0.03⟩
      ∧ (s.step dt).body.tau
        = Vec3.cross (Vec3.sub (s.body.vdata0.getD 0 ⟨0, 0, 0⟩) s.body.X)
            ⟨0.15, 0.25, 0.03⟩) := by
  refine ⟨fun s b0 => rfl, fun s dt hc0 => ?_, fun s dt hc1 => ?_⟩
  · have hne : s.stepCount ≠ 1 := by rw [hc0]; omega
    constructor
    · rw [step_body_F]
      exact computeFT_F_of_ne s.g s.stepCount s.body hne
    · rw [step_body_tau]
      exact computeFT_tau_of_ne s.g s.stepCount s.body hne
  · constructor
    · rw [step_body_F]
      show (computeForceAndTorque s.g s.stepCount s.body).F
        = Vec3.add (Vec3.smul s.body.M s.g) ⟨0.15, 0.25, 0.03⟩
      rw [computeFT_eq, hc1, if_pos rfl]
    · rw [step_body_tau]
      show (computeForceAndTorque s.g s.stepCount s.body).tau
        = Vec3.cross (Vec3.sub (s.body.vdata0.getD 0 ⟨0, 0, 0⟩) s.body.X)
            ⟨0.15, 0.25, 0.03⟩
      rw [computeFT_eq, hc1, if_pos rfl]

/-- Witness for the amended C1 at concrete counter-0 and counter-1 solvers. -/
theorem impulse_fires_on_counter_one_witness :
    (solverW.stepCount = 0
      ∧ (solverW.step 0.01).body.F = Vec3.smul solverW.body.M solverW.g
      ∧ (solverW.step 0.01).body.tau = solverW.body.tau)
  ∧ (solverX.stepCount = 1
      ∧ (solverX.step 0.01).body.F
          = Vec3.add (Vec3.smul solverX.body.M solverX.g) ⟨0.15, 0.25, 0.03⟩
      ∧ (solverX.step 0.01).body.tau
          = Vec3.cross
              (Vec3.sub (solverX.body.vdata0.getD 0 ⟨0, 0, 0⟩) solverX.body.X)
              ⟨0.15, 0.25, 0.03⟩) := by
  have h0 : solverW.stepCount = 0 := rfl
  have h1 : solverX.stepCount = 1 := rfl
  obtain ⟨hF0, ht0⟩ := impulse_fires_on_counter_one.2.1 solverW 0.01 h0
  obtain ⟨hF1, ht1⟩ := impulse_fires_on_counter_one.2.2 solverX 0.01 h1
  exact ⟨⟨h0, hF0, ht0⟩, ⟨h1, hF1, ht1⟩⟩

/-- Counterexample to C2 as stated: after the impulse step (the step taken
with counter 1), `tau` is never overwritten back to zero.  Two steps from a
fresh default solver leave the counter at 2 (so the impulse branch does not
fire on the third step), yet `tau` is nonzero during the third step and `L`
changes across it. -/
theorem tau_persists_cex :
    ((solverW.step 0.01).step 0.01).stepCount ≠ 1
  ∧ ((solverW.step 0.01).step 0.01).body.tau.y ≠ 0
  ∧ (((solverW.step 0.01).step 0.01).step 0.01).body.L.y
      ≠ ((solverW.step 0.01).step 0.01).body.L.y := by
  have hc0 : solverW.stepCount ≠ 1 := by norm_num [solverW]
  have hc1 : (solverW.step 0.01).stepCount = 1 := rfl
  have hc2 : ((solverW.step 0.01).step 0.01).stepCount ≠ 1 := by
    norm_num [step_stepCount, solverW]
  have hP1 : (solverW.step 0.01).body.P = ⟨0, -0.098, 0⟩ := by
    rw [step_body_P]
    have h1 : (bAcc solverW).P = solverW.body.P :=
      (computeFT_keeps solverW.g solverW.stepCount solverW.body).2.2.2.2.2.2.2.1
    have h2 : (bAcc solverW).F = Vec3.smul solverW.body.M solverW.g :=
      computeFT_F_of_ne solverW.g solverW.stepCount solverW.body hc0
    rw [h1, h2]
    ext <;> norm_num [solverW, Box, Vec3.add, Vec3.smul]
  have hV1 : (solverW.step 0.01).body.V = ⟨0, -0.0098, 0⟩ := by
    rw [step_body_V, hP1]
    have h1 : (bAcc solverW).M = solverW.body.M :=
      (computeFT_keeps solverW.g solverW.stepCount solverW.body).1
    rw [h1]
    ext <;> norm_num [solverW, Box, Vec3.divScalar]
  have hX1 : (solverW.step 0.01).body.X = ⟨0, -0.000098, 0⟩ := by
    rw [step_body_X, hV1]
    have h1 : (bAcc solverW).X = solverW.body.X :=
      (computeFT_keeps solverW.g solverW.stepCount solverW.body).2.2.2.2.1
    rw [h1]
    ext <;> norm_num [solverW, Box, Vec3.add, Vec3.smul]
  have hvd1 : (solverW.step 0.01).body.vdata0 = solverW.body.vdata0 := by
    rw [step_body_vdata0]
    exact (computeFT_keeps solverW.g solverW.stepCount solverW.body).2.2.2.2.2.2.2.2.2
  have hL1 : (solverW.step 0.01).body.L = ⟨0, 0, 0⟩ := by
    rw [step_body_L]
    have h1 : (bAcc solverW).L = solverW.body.L :=
      (computeFT_keeps solverW.g solverW.stepCount solverW.body).2.2.2.2.2.2.2.2.1
    have h2 : (bAcc solverW).tau = solverW.body.tau :=
      computeFT_tau_of_ne solverW.g solverW.stepCount solverW.body hc0
    rw [h1, h2]
    ext <;> norm_num [solverW, Box, Vec3.add, Vec3.smul]
  have htau2 : ((solverW.step 0.01).step 0.01).body.tau
      = Vec3.cross
          (Vec3.sub ((solverW.step 0.01).body.vdata0.getD 0 ⟨0, 0, 0⟩)
            ((solverW.step 0.01).body.X))
          ⟨0.15, 0.25, 0.03⟩ := by
    rw [step_body_tau]
    show (computeForceAndTorque (solverW.step 0.01).g
        (solverW.step 0.01).stepCount (solverW.step 0.01).body).tau = _
    rw [computeFT_eq, hc1, if_pos rfl]
  have htau2v : ((solverW.step 0.01).step 0.01).body.tau
      = ⟨0.11000294, -0.06, -0.0500147⟩ := by
    rw [htau2, hvd1, hX1]
    ext <;> norm_num [solverW, Box, Vec3.sub, Vec3.cross, List.getD]
  have hL2 : ((solverW.step 0.01).step 0.01).body.L
      = ⟨0.0011000294, -0.0006, -0.000500147⟩ := by
    rw [step_body_L]
    have h1 : (bAcc (solverW.step 0.01)).L = (solverW.step 0.01).body.L :=
      (computeFT_keeps (solverW.step 0.01).g (solverW.step 0.01).stepCount
        (solverW.step 0.01).body).2.2.2.2.2.2.2.2.1
    have h2 : (bAcc (solverW.step 0.01)).tau
        = ((solverW.step 0.01).step 0.01).body.tau :=
      (step_body_tau (solverW.step 0.01) 0.01).symm
    rw [h1, h2, htau2v, hL1]
    ext <;> norm_num [Vec3.add, Vec3.smul]
  have hL3y : ((((solverW.step 0.01).step 0.01).step 0.01).body.L).y
      = -0.0012 := by
    rw [step_body_L]
    have h1 : (bAcc ((solverW.step 0.01).step 0.01)).L
        = ((solverW.step 0.01).step 0.01).body.L :=
      (computeFT_keeps ((solverW.step 0.01).step 0.01).g
        ((solverW.step 0.01).step 0.01).stepCount
        ((solverW.step 0.01).step 0.01).body).2.2.2.2.2.2.2.2.1
    have h2 : (bAcc ((solverW.step 0.01).step 0.01)).tau
        = ((solverW.step 0.01).step 0.01).body.tau :=
      computeFT_tau_of_ne ((solverW.step 0.01).step 0.01).g
        ((solverW.step 0.01).step 0.01).stepCount
        ((solverW.step 0.01).step 0.01).body hc2
    rw [h1, h2, hL2, htau2v]
    norm_num [Vec3.add, Vec3.smul]
  refine ⟨hc2, ?_, ?_⟩
  · rw [htau2v]
    norm_num
  · rw [hL3y, hL2]
    norm_num

/-- C2 (amended): `F` is overwritten on every step, but `tau` is written
only on the impulse step (counter 1); on every other step `tau` carries its
previous value unchanged and `L` changes by `dt` times that carried `tau` —
so `tau` is zero on non-impulse steps only as long as the impulse step has
not yet executed. -/
theorem tau_carried_on_non_impulse_steps (s : RigidSolver) (dt : ℝ)
    (hc : s.stepCount ≠ 1) :
    (s.step dt).body.F = Vec3.smul s.body.M s.g
  ∧ (s.step dt).body.tau = s.body.tau
  ∧ (s.step dt).body.L = Vec3.add s.body.L (Vec3.smul dt s.body.tau) := by
  have hF : (bAcc s).F = Vec3.smul s.body.M s.g :=
    computeFT_F_of_ne s.g s.stepCount s.body hc
  have htau : (bAcc s).tau = s.body.tau :=
    computeFT_tau_of_ne s.g s.stepCount s.body hc
  have hL : (bAcc s).L = s.body.L :=
    (computeFT_keeps s.g s.stepCount s.body).2.2.2.2.2.2.2.2.1
  refine ⟨?_, ?_, ?_⟩
  · rw [step_body_F, hF]
  · rw [step_body_tau, htau]
  · rw [step_body_L, hL, htau]

/-- Witness for the amended C2 at the fresh default solver (counter 0). -/
theorem tau_carried_on_non_impulse_steps_witness :
    solverW.stepCount ≠ 1
  ∧ ((solverW.step 0.01).body.F = Vec3.smul solverW.body.M solverW.g
      ∧ (solverW.step 0.01).body.tau = solverW.body.tau
      ∧ (solverW.step 0.01).body.L
        = Vec3.add solverW.body.L (Vec3.smul 0.01 solverW.body.tau)) := by
  have hc : solverW.stepCount ≠ 1 := by norm_num [solverW]
  exact ⟨hc, tau_carried_on_non_impulse_steps solverW 0.01 hc⟩

/-- Counterexample to C8 as stated: with `dens = 0` and `v0 = (1,0,0)` the
mass is zero, so `V·M = P` holds even though `v0` is nonzero, refuting the
parenthetical "V·M = P only holds when v0 is zero". -/
theorem box_momenta_gloss_cex :
    Vec3.smul (Box 1 1 1 0 ⟨1, 0, 0⟩ ⟨0, 0, 0⟩).M
        (Box 1 1 1 0 ⟨1, 0, 0⟩ ⟨0, 0, 0⟩).V
      = (Box 1 1 1 0 ⟨1, 0, 0⟩ ⟨0, 0, 0⟩).P
  ∧ (Box 1 1 1 0 ⟨1, 0, 0⟩ ⟨0, 0, 0⟩).V.x ≠ 0 := by
  constructor
  · ext <;> norm_num [Box, Vec3.smul]
  · norm_num [Box]

/-- C8 (amended): the box factory sets `M = dens·w·h·d`, the diagonal box
inertia tensor, stores `v0`/`omega0` directly into `V`/`omega`, and leaves
the momenta `P` and `L` at zero regardless of `v0` and `omega0`; hence for
nonzero mass, `V·M = P` holds iff `v0` is zero. -/
theorem box_construction_fields (w h d dens : ℝ) (v0 omega0 : Vec3) :
    (Box w h d dens v0 omega0).M = dens * w * h * d
  ∧ (Box w h d dens v0 omega0).I0
      = (⟨(1 / 12) * (dens * w * h * d) * (h * h + d * d), 0, 0,
          0, (1 / 12) * (dens * w * h * d) * (w * w + d * d), 0,
          0, 0, (1 / 12) * (dens * w * h * d) * (w * w + h * h)⟩ : Mat3)
  ∧ (Box w h d dens v0 omega0).V = v0
  ∧ (Box w h d dens v0 omega0).omega = omega0
  ∧ (Box w h d dens v0 omega0).P = ⟨0, 0, 0⟩
  ∧ (Box w h d dens v0 omega0).L = ⟨0, 0, 0⟩
  ∧ (dens * w * h * d ≠ 0 →
      (Vec3.smul (Box w h d dens v0 omega0).M (Box w h d dens v0 omega0).V
          = (Box w h d dens v0 omega0).P
        ↔ v0 = ⟨0, 0, 0⟩)) := by
  obtain ⟨vx, vy, vz⟩ := v0
  refine ⟨rfl, rfl, rfl, rfl, rfl, rfl, fun hM => ⟨fun hEq => ?_, fun hv0 => ?_⟩⟩
  · have hx := congrArg Vec3.x hEq
    have hy := congrArg Vec3.y hEq
    have hz := congrArg Vec3.z hEq
    simp only [Vec3.smul, Box] at hx hy hz
    ext
    · exact (mul_eq_zero.mp hx).resolve_left hM
    · exact (mul_eq_zero.mp hy).resolve_left hM
    · exact (mul_eq_zero.mp hz).resolve_left hM
  · rw [hv0]
    ext <;> simp [Vec3.smul, Box]

/-- Witness for the amended C8 at the default box parameters. -/
theorem box_construction_fields_witness :
    ((10:ℝ) * 1 * 1 * 1 ≠ 0)
  ∧ (Vec3.smul (Box 1 1 1 10 ⟨0, 0, 0⟩ ⟨0, 0, 0⟩).M
        (Box 1 1 1 10 ⟨0, 0, 0⟩ ⟨0, 0, 0⟩).V
      = (Box 1 1 1 10 ⟨0, 0, 0⟩ ⟨0, 0, 0⟩).P
    ↔ (⟨0, 0, 0⟩ : Vec3) = ⟨0, 0, 0⟩) := by
  have hM : (10:ℝ) * 1 * 1 * 1 ≠ 0 := by norm_num
  exact ⟨hM,
    (box_construction_fields 1 1 1 10 ⟨0, 0, 0⟩ ⟨0, 0, 0⟩).2.2.2.2.2.2 hM⟩

end

end RigidSim
